import Mathlib

/-!
Verification of the Moon-Mod-Tools core against its specification.

The development shallowly embeds the parts of the source the claims are
about:

* `src/modules/logger/events/log.mjs` — the message-delete deduplication
  mechanism (the module-level `messageDeleteTimer` variable, the
  `messageDelete` client-event handler and the `raw` gateway handler) and
  the raw MESSAGE_UPDATE path.
* `src/events/shutdown.mjs` — `Application.safeImport`,
  `Application.toModulePath`, `Application.loadOptions` and the `reload`
  slash-command handler.

JavaScript values are modelled with Lean data: ids as `Nat`, strings as
`String`, `null`/`undefined` as `Option.none`, and truthiness explicitly
where the source branches on it.  Timers are modelled as an explicit
schedule of timeouts, and the single-threaded event loop as a trace of
events (handler invocations and timeout firings) with nondecreasing
times.
-/

namespace MoonModTools

/-! ## Deduplication mechanism of `src/modules/logger/events/log.mjs` -/

/-- The value held by the module-level variable `messageDeleteTimer`
(log.mjs line 10): JavaScript `null`/`undefined`, the literal `true`
written by the `messageDelete` handler, or a `setTimeout` handle, modelled
as the index of the timeout in the schedule. -/
inductive TimerVar where
  | null : TimerVar
  | boolTrue : TimerVar
  | handle (i : Nat) : TimerVar
deriving DecidableEq, Repr

/-- JavaScript truthiness of the `messageDeleteTimer` variable: `null` is
falsy, `true` and any timer handle are truthy. -/
def TimerVar.truthy : TimerVar → Bool
  | .null => false
  | .boolTrue => true
  | .handle _ => true

/-- One `setTimeout` scheduled by the raw MESSAGE_DELETE branch
(log.mjs lines 216-219): the synthesized payload fields it closes over,
its deadline (scheduling time plus 500 ms), and whether it has been
cleared (`clearTimeout`) or has already run. -/
structure Timeout where
  msgId : Nat
  channelId : Nat
  guildId : Nat
  fireAt : Nat
  canceled : Bool
  fired : Bool
deriving DecidableEq, Repr

/-- The state of the deduplication mechanism: every timeout scheduled so
far, in creation order, plus the current value of `messageDeleteTimer`. -/
structure DedupState where
  timeouts : List Timeout
  timerVar : TimerVar
deriving DecidableEq, Repr

/-- Initial state: no timeouts scheduled, `messageDeleteTimer` unset. -/
def DedupState.init : DedupState := ⟨[], .null⟩

/-- Which channel a dispatch came through: the structured `messageDelete`
client event, or the event synthesized when a raw-path timeout fires. -/
inductive Channel where
  | structured
  | synthesized
deriving DecidableEq, Repr

/-- A dispatch: the `messageDelete` handler proceeding past its
deduplication gate (log.mjs line 144 onwards) for a message id at a
time. -/
structure Dispatch where
  chan : Channel
  msgId : Nat
  time : Nat
deriving DecidableEq, Repr

/-- `clearTimeout(messageDeleteTimer)` (log.mjs line 138): marks the
referenced timeout canceled when the variable holds a handle, and is a
no-op otherwise (in particular on the literal `true`). -/
def clearTimeoutVar (s : DedupState) : DedupState :=
  match s.timerVar with
  | .handle i =>
      { s with timeouts :=
          s.timeouts.mapIdx fun j t => if j = i then { t with canceled := true } else t }
  | _ => s

/-- The deduplication gate at the top of the `messageDelete` handler
(log.mjs lines 137-142), followed by the rest of the handler, which
dispatches the log entry.  `chan` records which channel invoked the
handler: the structured client event, or a fired raw-path timeout. -/
def onMessageDelete (s : DedupState) (msgId t : Nat) (chan : Channel) :
    DedupState × List Dispatch :=
  if s.timerVar.truthy then
    ({ clearTimeoutVar s with timerVar := .null }, [⟨chan, msgId, t⟩])
  else
    ({ s with timerVar := .boolTrue }, [⟨chan, msgId, t⟩])

/-- The raw MESSAGE_DELETE branch of the `raw` handler (log.mjs lines
214-222): when `messageDeleteTimer` is falsy, schedule a 500 ms timeout
whose callback emits a synthesized `messageDelete`; otherwise set the
variable to `null` without clearing the scheduled timeout. -/
def onRawDelete (s : DedupState) (msgId channelId guildId t : Nat) : DedupState :=
  if s.timerVar.truthy then
    { s with timerVar := .null }
  else
    { timeouts := s.timeouts ++ [⟨msgId, channelId, guildId, t + 500, false, false⟩],
      timerVar := .handle s.timeouts.length }

/-- The event loop runs timeout `i` at time `t`: the timeout is marked as
having run, and its callback (log.mjs lines 217-219) emits a synthesized
`messageDelete` event, which invokes the `messageDelete` handler with the
payload built from the raw packet. -/
def onTimeoutFire (s : DedupState) (i t : Nat) : DedupState × List Dispatch :=
  match s.timeouts.get? i with
  | some tm =>
      let s1 : DedupState :=
        { s with timeouts :=
            s.timeouts.mapIdx fun j x => if j = i then { x with fired := true } else x }
      onMessageDelete s1 tm.msgId t .synthesized
  | none => (s, [])

/-- One event of the single-threaded event loop, with the wall-clock time
at which it runs. -/
inductive DedupEvent where
  | structuredDelete (msgId : Nat) (t : Nat)
  | rawDelete (msgId channelId guildId : Nat) (t : Nat)
  | timeoutFire (i : Nat) (t : Nat)
deriving DecidableEq, Repr

/-- The time at which an event runs. -/
def DedupEvent.time : DedupEvent → Nat
  | .structuredDelete _ t => t
  | .rawDelete _ _ _ t => t
  | .timeoutFire _ t => t

/-- One step of the deduplication mechanism: run an event against the
state, producing the next state and the dispatches the event caused. -/
def stepEvent (s : DedupState) : DedupEvent → DedupState × List Dispatch
  | .structuredDelete m t => onMessageDelete s m t .structured
  | .rawDelete m c g t => (onRawDelete s m c g t, [])
  | .timeoutFire i t => onTimeoutFire s i t

/-- Run a trace of events from a state, collecting dispatches in order. -/
def runFrom (s : DedupState) : List DedupEvent → DedupState × List Dispatch
  | [] => (s, [])
  | e :: es =>
      let p := stepEvent s e
      let q := runFrom p.1 es
      (q.1, p.2 ++ q.2)

/-- Run a trace from the initial state. -/
def run (tr : List DedupEvent) : DedupState × List Dispatch :=
  runFrom .init tr

/-- Whether an event may run next: times never decrease, and a timeout
fires only if it is scheduled, has not been cleared, has not already run,
and its deadline has been reached. -/
def validStep (s : DedupState) (last : Nat) : DedupEvent → Bool
  | .structuredDelete _ t => decide (last ≤ t)
  | .rawDelete _ _ _ t => decide (last ≤ t)
  | .timeoutFire i t =>
      decide (last ≤ t) &&
        match s.timeouts.get? i with
        | some tm => !tm.canceled && !tm.fired && decide (tm.fireAt ≤ t)
        | none => false

/-- Whether a trace is a possible execution from a state (times start at
`last`). -/
def validFrom (s : DedupState) (last : Nat) : List DedupEvent → Bool
  | [] => true
  | e :: es => validStep s last e && validFrom (stepEvent s e).1 e.time es

/-- Whether a trace is a possible execution from the initial state. -/
def validTrace (tr : List DedupEvent) : Bool :=
  validFrom .init 0 tr

/-- No timeout is still pending: each was cleared or has run. -/
def DedupState.noLiveTimeout (s : DedupState) : Bool :=
  s.timeouts.all fun t => t.canceled || t.fired

/-- A complete execution: valid, and by its end every scheduled timeout
has either been cleared or has fired (nothing is still pending, so no
further dispatch can ever occur). -/
def completeTrace (tr : List DedupEvent) : Bool :=
  validTrace tr && (run tr).1.noLiveTimeout

/-- The dispatches of a trace that concern one message id. -/
def dispatchesFor (tr : List DedupEvent) (msgId : Nat) : List Dispatch :=
  (run tr).2.filter fun d => d.msgId = msgId


/-- Failing execution for C1: message 1 deleted (raw packet at 0 ms,
structured event at 20 ms — within the 500 ms window), message 2 deleted
(raw packet at 10 ms, never cached, so no structured event), and the one
scheduled timeout fires at its 500 ms deadline. -/
def c1Trace : List DedupEvent :=
  [.rawDelete 1 11 21 0, .rawDelete 2 12 22 10,
   .structuredDelete 1 20, .timeoutFire 0 500]

/-- Failing execution for C2 and C7 (cross-key cancellation): message 1
deleted via the raw packet at 0 ms, then a structured delete of a
different message 2 at 10 ms. -/
def c2Trace : List DedupEvent :=
  [.rawDelete 1 11 21 0, .structuredDelete 2 10]

/-- Failing execution for C6: two uncached messages deleted via raw
packets 50 ms apart, no structured event at all, and the one scheduled
timeout fires at its deadline. -/
def c6Trace : List DedupEvent :=
  [.rawDelete 3 13 23 0, .rawDelete 4 14 24 50, .timeoutFire 0 500]

/-- Failing execution for C7: raw delete of message 5 at 0 ms, raw delete
of message 6 at 10 ms, structured delete of message 5 at 30 ms (while the
timeout for message 5 is still pending), the timeout fires at 500 ms. -/
def c7Trace : List DedupEvent :=
  [.rawDelete 5 15 25 0, .rawDelete 6 16 26 10,
   .structuredDelete 5 30, .timeoutFire 0 500]

/-- C1 fails on the code: in the complete execution `c1Trace`, the
occurrence of message 1 — observed by both channels within the 500 ms
window — is dispatched twice (once structured-triggered, once
timer-synthesized), and the occurrence of message 2 — observed by the raw
channel — is dispatched zero times.  The shared `messageDeleteTimer` flag
of log.mjs line 10 conflates the two keys: the raw packet for message 2
merely nulls the variable, so the structured event for message 1 finds a
falsy flag and cannot suppress the still-scheduled timer. -/
theorem c1_shared_flag_double_and_zero_dispatch :
    completeTrace c1Trace = true ∧
    (run c1Trace).2 =
      [⟨Channel.structured, 1, 20⟩, ⟨Channel.synthesized, 1, 500⟩] ∧
    dispatchesFor c1Trace 2 = [] := by decide

/-- C2 fails on the code: in the valid execution `c2Trace`, the pending
deduplication entry for message 1 (the timeout scheduled by its raw
packet, not yet canceled after the first event) is canceled by the
structured observation of the distinct message 2 — entries for distinct
keys are not independent, because the code keeps a single shared
`messageDeleteTimer` rather than one entry per key. -/
theorem c2_cross_key_entry_not_independent :
    validTrace c2Trace = true ∧
    (run [DedupEvent.rawDelete 1 11 21 0]).1.timeouts =
      [⟨1, 11, 21, 500, false, false⟩] ∧
    (run c2Trace).1.timeouts = [⟨1, 11, 21, 500, true, false⟩] ∧
    (run c2Trace).2 = [⟨Channel.structured, 2, 10⟩] := by decide

/-- C6 fails on the code: in the complete execution `c6Trace`, message 4
is first observed via the raw channel at 50 ms and no structured
notification ever arrives, yet no synthesized dispatch for it occurs —
its raw packet found the shared `messageDeleteTimer` truthy (it held the
handle of message 3's timeout) and therefore scheduled nothing. -/
theorem c6_raw_only_key_never_dispatched :
    completeTrace c6Trace = true ∧
    (run c6Trace).2 = [⟨Channel.synthesized, 3, 500⟩] ∧
    dispatchesFor c6Trace 4 = [] := by decide

/-- C7 fails on the code: in the valid execution `c7Trace`, the
structured notification for message 5 arrives at 30 ms while the timeout
for message 5 is pending (after three events it is still neither canceled
nor fired), yet no cancellation happens — the shared variable had been
nulled by message 6's raw packet — and the timer later fires, yielding a
second dispatch for message 5.  Together with
`c2_cross_key_entry_not_independent` (a cancellation caused by a
different key), cancellation is neither guaranteed when the structured
channel resolves the key first nor restricted to that circumstance. -/
theorem c7_cancellation_not_exactly_on_structured_resolution :
    validTrace c7Trace = true ∧
    (run (c7Trace.take 3)).1.timeouts = [⟨5, 15, 25, 500, false, false⟩] ∧
    (run c7Trace).2 =
      [⟨Channel.structured, 5, 30⟩, ⟨Channel.synthesized, 5, 500⟩] := by decide

/-! ## Loader: `Application` of `src/events/shutdown.mjs` -/

/-- A module value as returned by the host platform's dynamic import:
whether it carries the two exports of the handler-module contract, each
with an opaque payload (the definition metadata as a string, the
entry-point callable as an id). -/
structure JsModule where
  definitionExport : Option String
  handlerExport : Option Nat
deriving DecidableEq, Repr

/-- The host environment a load runs against: `fs.access` (whether a
filename is accessible, and the error raised when it is not),
`path.resolve`, `Date.now()`, and the native `import` operation, which
either yields a module or raises an error, at a given locator. -/
structure Host where
  accessible : String → Bool
  accessErr : String → String
  resolve : String → String
  now : Nat
  importAt : String → Except String JsModule

/-- The options object passed to `safeImport`.  `reload = some b` models
an options object with a `reload` property of truthiness `b`; `none`
models absence of the property. -/
structure ImportOptions where
  reload : Option Bool := none
deriving DecidableEq, Repr

/-- Kind of a log line written by `Application.log`. -/
inductive LogKind where
  | error
  | debug
deriving DecidableEq, Repr

/-- One log line: its kind, its message, and the caught error passed
along to `logError`, when there is one. -/
structure LogEntry where
  kind : LogKind
  message : String
  cause : Option String
deriving DecidableEq, Repr

/-- `Application.toModulePath` (shutdown.mjs lines 205-207): the locator
the native import accepts, `"file:"` plus the resolved path plus the
append string. -/
def toModulePath (host : Host) (filename append : String) : String :=
  "file:" ++ host.resolve filename ++ append

/-- The freshness suffix computed inside `safeImport` (shutdown.mjs
lines 184-189): when the options carry a truthy `reload`, a `?t=` query
holding `Date.now()`; otherwise the empty string.  The source then
deletes the `reload` property before the options object reaches the
native import; the abstract `importAt` takes only the locator, so that
mutation has no further observable effect here. -/
def freshnessAppend (host : Host) (opts : ImportOptions) : String :=
  match opts.reload with
  | some true => "?t=" ++ toString host.now
  | _ => ""

/-- `Application.safeImport` (shutdown.mjs lines 175-200): the result of
the guarded import — `none` models the bare `return;` of a caught
failure — together with the log lines written.  Each catch block logs the
caught error as the entry's cause. -/
def safeImport (host : Host) (filename : String) (opts : ImportOptions) :
    Option JsModule × List LogEntry :=
  if host.accessible filename then
    let append := freshnessAppend host opts
    let filepath := toModulePath host filename append
    match host.importAt filepath with
    | .ok m =>
        (some m, [⟨.debug, "Importing module " ++ filepath ++ ".", none⟩])
    | .error e =>
        (none, [⟨.debug, "Importing module " ++ filepath ++ ".", none⟩,
                ⟨.error, "File " ++ filename ++ append ++
                   " cannot be imported by Node.js.", some e⟩])
  else
    (none, [⟨.error, "File " ++ filename ++ " is not accessible for import.",
             some (host.accessErr filename)⟩])

/-- The two fallible native operations `safeImport` guards, composed
without its try/catch blocks: `fs.access` followed by `import`.  An
`Except.error` here is a fault that would propagate to the caller. -/
def importUnguarded (host : Host) (filename : String) (opts : ImportOptions) :
    Except String JsModule :=
  if host.accessible filename then
    host.importAt (toModulePath host filename (freshnessAppend host opts))
  else
    .error (host.accessErr filename)

/-- The Loader failure taxonomy of the spec (section 7). -/
inductive LoadFailure where
  | sourceUnavailable
  | importFault
  | malformedUnit
deriving DecidableEq, Repr

/-- A validated handler unit: definition metadata plus entry point. -/
structure HandlerUnit where
  definition : String
  entryPoint : Nat
deriving DecidableEq, Repr

/-- Modelled from the spec: the validation step of the load protocol.
`Bot.registerEventHandlerFile`, which wraps `Application.safeImport` and
checks the loaded module, is not among the files under src/ — only its
caller, the reload command of shutdown.mjs line 14, is.  Following the
spec's handler-module contract, a loadable unit must export a definition
object and an entry-point callable, and absence of either is a
`LoadFailure` of kind `MalformedUnit`. -/
def validateUnit (m : JsModule) : Except LoadFailure HandlerUnit :=
  match m.definitionExport, m.handlerExport with
  | some d, some h => .ok ⟨d, h⟩
  | _, _ => .error .malformedUnit

/-- The full load operation of the Loader contract: guarded import via
`safeImport`, then export validation (the latter modelled from the
spec, see `validateUnit`). -/
def load (host : Host) (filename : String) (opts : ImportOptions) :
    Except LoadFailure HandlerUnit :=
  match (safeImport host filename opts).1 with
  | some m => validateUnit m
  | none =>
      if host.accessible filename then .error .importFault
      else .error .sourceUnavailable

/-- C4: `safeImport` never raises past its boundary.  When the unguarded
pipeline (access check, then import) would raise, `safeImport` instead
returns the failure as a value — result `none`, with the caught error
attached as the cause of a logged report — and in particular an
inaccessible source yields exactly the source-unavailable report with the
access error attached; when the pipeline succeeds, the module is
returned. -/
theorem safeImport_never_raises (host : Host) (filename : String)
    (opts : ImportOptions) :
    (host.accessible filename = false →
      safeImport host filename opts =
        (none, [⟨.error, "File " ++ filename ++ " is not accessible for import.",
                 some (host.accessErr filename)⟩])) ∧
    (∀ e, importUnguarded host filename opts = .error e →
      (safeImport host filename opts).1 = none ∧
      some e ∈ (safeImport host filename opts).2.map LogEntry.cause) ∧
    (∀ m, importUnguarded host filename opts = .ok m →
      (safeImport host filename opts).1 = some m) := by
  unfold safeImport importUnguarded
  cases h : host.accessible filename
  · simp
  · simp only [if_pos rfl, Bool.true_eq_false, false_implies, true_and]
    cases him : host.importAt (toModulePath host filename (freshnessAppend host opts)) <;>
      simp [him]

/-- Concrete host for the C4 witness: no file is accessible. -/
def hostInaccessible : Host where
  accessible := fun _ => false
  accessErr := fun _ => "ENOENT"
  resolve := fun s => "/abs/" ++ s
  now := 1700000000000
  importAt := fun _ => .error "unreachable"

/-- Witness for C4 at a concrete host: the inaccessible file makes
`safeImport` return the failure value with the access error as its
cause. -/
theorem safeImport_never_raises_witness :
    safeImport hostInaccessible "mod.mjs" ⟨none⟩ =
      (none, [⟨.error, "File " ++ "mod.mjs" ++ " is not accessible for import.",
               some "ENOENT"⟩]) :=
  (safeImport_never_raises hostInaccessible "mod.mjs" ⟨none⟩).1 rfl

/-- C3: when the import succeeds, the load protocol validates both
required exports.  A loaded module lacking its definition export or its
entry-point export makes `load` return the `malformedUnit` failure, and a
successful `load` yields a unit built from both exports — a malformed
module is never returned as a successful unit.  The validation step is
modelled from the spec (see `validateUnit`). -/
theorem load_validates_exports (host : Host) (filename : String)
    (opts : ImportOptions) (m : JsModule)
    (him : (safeImport host filename opts).1 = some m) :
    (m.definitionExport = none ∨ m.handlerExport = none →
      load host filename opts = .error .malformedUnit) ∧
    (∀ u, load host filename opts = .ok u →
      m.definitionExport = some u.definition ∧
      m.handlerExport = some u.entryPoint) := by
  unfold load
  rw [him]
  cases hd : m.definitionExport <;> cases hh : m.handlerExport <;>
    simp_all [validateUnit]

/-- Concrete host for the C3 witness: the import succeeds but the module
lacks its entry-point export. -/
def hostMalformed : Host where
  accessible := fun _ => true
  accessErr := fun _ => ""
  resolve := fun s => "/abs/" ++ s
  now := 0
  importAt := fun _ => .ok ⟨some "greet", none⟩

/-- Witness for C3 at a concrete host: a module missing its handler
export loads as the `malformedUnit` failure. -/
theorem load_validates_exports_witness :
    load hostMalformed "greet.mjs" ⟨none⟩ = .error .malformedUnit :=
  (load_validates_exports hostMalformed "greet.mjs" ⟨none⟩
    ⟨some "greet", none⟩ rfl).1 (Or.inr rfl)

/-- C5: the locator `safeImport` builds.  With a truthy `reload` option
it is the canonical resolved locator (`"file:"` plus the resolved path)
with the `?t=` timestamp suffix appended; without one it is exactly the
canonical resolved locator; and when the source is accessible the import
is performed at that locator. -/
theorem safeImport_locator (host : Host) (filename : String)
    (opts : ImportOptions) :
    (opts.reload = some true →
      toModulePath host filename (freshnessAppend host opts) =
        "file:" ++ host.resolve filename ++ ("?t=" ++ toString host.now)) ∧
    (opts.reload ≠ some true →
      toModulePath host filename (freshnessAppend host opts) =
        "file:" ++ host.resolve filename) ∧
    (host.accessible filename = true →
      (safeImport host filename opts).1 =
        (host.importAt (toModulePath host filename (freshnessAppend host opts))).toOption) := by
  refine ⟨fun h => ?_, fun h => ?_, fun h => ?_⟩
  · simp [toModulePath, freshnessAppend, h]
  · have hfa : freshnessAppend host opts = "" := by
      unfold freshnessAppend
      cases hr : opts.reload with
      | none => rfl
      | some b => cases b with
        | true => exact absurd hr h
        | false => rfl
    simp [toModulePath, hfa]
  · unfold safeImport
    rw [if_pos h]
    cases him : host.importAt (toModulePath host filename (freshnessAppend host opts)) <;>
      simp [him, Except.toOption]

/-- Concrete host for the C5 witness. -/
def hostFresh : Host where
  accessible := fun _ => true
  accessErr := fun _ => ""
  resolve := fun _ => "/abs/mod.mjs"
  now := 123
  importAt := fun _ => .ok ⟨some "d", some 0⟩

/-- Witness for C5 at a concrete host: with `reload` truthy the locator
carries the timestamp suffix, and without it the locator is the bare
canonical one. -/
theorem safeImport_locator_witness :
    toModulePath hostFresh "mod.mjs" (freshnessAppend hostFresh ⟨some true⟩) =
      "file:" ++ "/abs/mod.mjs" ++ ("?t=" ++ toString (123 : Nat)) ∧
    toModulePath hostFresh "mod.mjs" (freshnessAppend hostFresh ⟨none⟩) =
      "file:" ++ "/abs/mod.mjs" :=
  ⟨(safeImport_locator hostFresh "mod.mjs" ⟨some true⟩).1 rfl,
   (safeImport_locator hostFresh "mod.mjs" ⟨none⟩).2.1 (by simp)⟩

/-! ## The reload command of `src/events/shutdown.mjs` (lines 10-56) -/

/-- One reply sent through `interaction.reply`. -/
structure Reply where
  content : String
  ephemeral : Bool
deriving DecidableEq, Repr

/-- The fields of the interaction that the reload handler reads: the
chosen subcommand and the two declared string options. -/
structure ReloadInteraction where
  subcommand : String
  fileOption : String
  commandOption : String
deriving DecidableEq, Repr

/-- The subcommand names declared by the `reload` command definition
(shutdown.mjs lines 25-56): two kind selectors, each carrying one
required string option. -/
def reloadDefinitionSubcommands : List String := ["event", "slash"]

/-- The `reload` command handler (shutdown.mjs lines 10-23).
`registerOk` is the outcome of
`this.master.registerEventHandlerFile(file, "reload")` — the registry
reload, which lives outside src/ — for a given file.  The result is the
list of replies sent, in order. -/
def reloadHandler (registerOk : String → Bool) (i : ReloadInteraction) :
    List Reply :=
  if i.subcommand = "event" then
    if registerOk i.fileOption then
      [⟨"Reloaded.", true⟩]
    else
      [⟨"Could not reload.", true⟩]
  else if i.subcommand = "slash" then
    [⟨"Doesn't work yet.", true⟩]
  else
    []

/-- C8: for every invocation whose kind selector is one the definition
declares, the handler sends exactly one ephemeral human-readable reply.
For the `event` kind the reply states the reload's success
("Reloaded.") or failure ("Could not reload.") as reported by the
registry, and for the `slash` kind — whose reload is unimplemented — it
states that the operation cannot succeed; no invocation goes without a
reply, so a failed reload is never silently swallowed. -/
theorem reloadHandler_acknowledges (registerOk : String → Bool)
    (i : ReloadInteraction)
    (hk : i.subcommand ∈ reloadDefinitionSubcommands) :
    ∃ r, reloadHandler registerOk i = [r] ∧ r.ephemeral = true ∧
      (i.subcommand = "event" →
        r.content =
          if registerOk i.fileOption then "Reloaded." else "Could not reload.") ∧
      (i.subcommand = "slash" → r.content = "Doesn't work yet.") := by
  simp only [reloadDefinitionSubcommands, List.mem_cons, List.mem_singleton,
    List.not_mem_nil, or_false] at hk
  rcases hk with h | h
  · cases hro : registerOk i.fileOption
    · exact ⟨⟨"Could not reload.", true⟩, by simp [reloadHandler, h, hro]⟩
    · exact ⟨⟨"Reloaded.", true⟩, by simp [reloadHandler, h, hro]⟩
  · refine ⟨⟨"Doesn't work yet.", true⟩, ?_⟩
    have hne : i.subcommand ≠ "event" := by simp [h]
    simp [reloadHandler, h, hne]

/-- Witness for C8 at a concrete invocation: an `event`-kind reload whose
registry reload fails draws the single failure acknowledgment. -/
theorem reloadHandler_acknowledges_witness :
    ∃ r, reloadHandler (fun _ => false) ⟨"event", "logger/events/log.mjs", ""⟩ = [r] ∧
      r.ephemeral = true ∧
      ("event" = "event" → r.content =
        if (fun (_ : String) => false) "logger/events/log.mjs" then "Reloaded."
        else "Could not reload.") ∧
      ("event" = "slash" → r.content = "Doesn't work yet.") :=
  reloadHandler_acknowledges (fun _ => false)
    ⟨"event", "logger/events/log.mjs", ""⟩ (by simp [reloadDefinitionSubcommands])

/-! ## The raw MESSAGE_UPDATE path of `src/modules/logger/events/log.mjs` -/

/-- The fields of a raw MESSAGE_UPDATE packet the handler reads: the
message and channel ids and the parsed edit timestamp (`Date.parse` of
`packet.d.timestamp`, in milliseconds). -/
structure UpdatePacket where
  msgId : Nat
  channelId : Nat
  timestamp : Int
deriving DecidableEq, Repr

/-- One field of a log embed. -/
structure EmbedField where
  name : String
  value : String
deriving DecidableEq, Repr

/-- The message data the `messageUpdate` handler reads when building the
old-message fields: whether the message carries a `content` property (and
the content), plus the brief attachment list already rendered to a
string. -/
structure MsgView where
  content : Option String
  attachList : String
deriving DecidableEq, Repr

/-- A synthesized `messageUpdate` emission: the old-message argument
passed to the handler (exactly what the `messageUpdate` handler will read
from it), and the id of the freshly fetched new message. -/
structure UpdateEmission where
  oldMessage : Option MsgView
  newMsgId : Nat
deriving DecidableEq, Repr

/-- The MESSAGE_UPDATE branch of the `raw` handler (log.mjs lines
205-213): when the packet's timestamp is strictly earlier than the
client's ready timestamp, the message is fetched and a `messageUpdate`
event is emitted with `null` as the old message; otherwise nothing is
emitted. -/
def onRawUpdate (ready : Int) (p : UpdatePacket) : Option UpdateEmission :=
  if p.timestamp < ready then some ⟨none, p.msgId⟩ else none

/-- A raw gateway packet as the `raw` handler (log.mjs lines 204-226)
distinguishes it. -/
inductive RawPacket where
  | messageUpdate (p : UpdatePacket)
  | messageDelete (msgId channelId guildId : Nat)
  | other
deriving DecidableEq, Repr

/-- The whole `raw` handler acting on the timer state at time `t`:
MESSAGE_UPDATE may emit a synthesized update event and does not touch the
timer state; MESSAGE_DELETE runs the deduplication branch and emits no
update; every other packet does nothing. -/
def rawHandler (ready : Int) (s : DedupState) (pkt : RawPacket) (t : Nat) :
    DedupState × Option UpdateEmission :=
  match pkt with
  | .messageUpdate p => (s, onRawUpdate ready p)
  | .messageDelete m c g => (onRawDelete s m c g t, none)
  | .other => (s, none)

/-- The old-message part of the main fields the `messageUpdate` handler
builds (log.mjs lines 80-99): the old content (and, when non-empty, the
old attachment list) when the old message is present and has a `content`
property, and the cannot-be-fetched notice otherwise — in particular
whenever the old message is `null`. -/
def oldMessageFields (oldMessage : Option MsgView) : List EmbedField :=
  match oldMessage with
  | some m =>
      match m.content with
      | some c =>
          ⟨"Old Message", c⟩ ::
            (if m.attachList.length ≠ 0 then [⟨"Old Attachments", m.attachList⟩]
             else [])
      | none =>
          [⟨"Uh oh!", "Old message content can't be fetched, because it is too old."⟩]
  | none =>
      [⟨"Uh oh!", "Old message content can't be fetched, because it is too old."⟩]

/-- C9: a raw MESSAGE_UPDATE packet makes the `raw` handler emit a
synthesized `messageUpdate` event exactly when its edit timestamp is
strictly earlier than the ready timestamp; the emission carries `null` as
the old message, so the rendered log shows the cannot-be-fetched notice;
the timer state is never touched by an update packet, so no timer is
involved. -/
theorem rawUpdate_emits_iff_before_ready (ready : Int) (s : DedupState)
    (p : UpdatePacket) (t : Nat) :
    ((rawHandler ready s (.messageUpdate p) t).2.isSome ↔ p.timestamp < ready) ∧
    (rawHandler ready s (.messageUpdate p) t).1 = s ∧
    (∀ e, (rawHandler ready s (.messageUpdate p) t).2 = some e →
      e.oldMessage = none ∧ e.newMsgId = p.msgId ∧
      oldMessageFields e.oldMessage =
        [⟨"Uh oh!", "Old message content can't be fetched, because it is too old."⟩]) := by
  refine ⟨?_, rfl, ?_⟩
  · simp only [rawHandler, onRawUpdate]
    split <;> simp_all
  · intro e he
    simp only [rawHandler, onRawUpdate] at he
    split at he
    · cases he
      exact ⟨rfl, rfl, rfl⟩
    · cases he

/-- Witness for C9 at a concrete input: a packet edited at 50 ms against
a ready timestamp of 100 ms emits the null-old-message event and leaves
the timer state unchanged; one edited at 100 ms emits nothing. -/
theorem rawUpdate_emits_iff_before_ready_witness :
    ((rawHandler 100 DedupState.init (RawPacket.messageUpdate ⟨7, 8, 50⟩) 0).2.isSome ↔
      (50 : Int) < 100) ∧
    (rawHandler 100 DedupState.init (RawPacket.messageUpdate ⟨7, 8, 50⟩) 0).1 =
      DedupState.init ∧
    (rawHandler 100 DedupState.init (RawPacket.messageUpdate ⟨9, 8, 100⟩) 0).2 = none :=
  ⟨(rawUpdate_emits_iff_before_ready 100 DedupState.init ⟨7, 8, 50⟩ 0).1,
   (rawUpdate_emits_iff_before_ready 100 DedupState.init ⟨7, 8, 50⟩ 0).2.1,
   by decide⟩

/-! ## `Application.loadOptions` of `src/events/shutdown.mjs` (lines 75-99) -/

/-- A value stored in the options table: a plain string for an ordinary
flag, an array of strings for a flag listed in `multiples`. -/
inductive OptValue where
  | str (s : String)
  | arr (xs : List String)
deriving DecidableEq, Repr

/-- JavaScript truthiness of a possibly-absent option value: an absent
value and the empty string are falsy; every other string and every array
is truthy. -/
def optTruthy : Option OptValue → Bool
  | none => false
  | some (.str s) => decide (s ≠ "")
  | some (.arr _) => true

/-- Lookup in the options object. -/
def getOpt : List (String × OptValue) → String → Option OptValue
  | [], _ => none
  | (k0, v0) :: rest, k => if k0 = k then some v0 else getOpt rest k

/-- Assignment in the options object, with JavaScript object semantics:
an existing key is overwritten in place, a new key is appended. -/
def setOpt : List (String × OptValue) → String → OptValue → List (String × OptValue)
  | [], k, v => [(k, v)]
  | (k0, v0) :: rest, k, v =>
      if k0 = k then (k0, v) :: rest else (k0, v0) :: setOpt rest k v

/-- The alias normalization of the flag-reading branch (shutdown.mjs
lines 79-82): the `for...in` loop over the alias table reassigns `arg` to
a base flag whenever the current value of `arg` appears among that base
flag's aliases, in table order. -/
def normalizeFlag (aliases : List (String × List String)) (arg : String) : String :=
  aliases.foldl (fun a kv => if kv.2.contains a then kv.1 else a) arg

/-- The value-storing branch of the loop (shutdown.mjs lines 85-95): a
flag listed in `multiples` whose current value is falsy gets a fresh
one-element array, one whose current value is an array gets the argument
pushed, and a push onto a truthy non-array — which cannot arise from the
empty table — is the TypeError the source would raise, modelled as
`none`; a flag not listed in `multiples` is simply overwritten. -/
def storeValue (multiples : List String) (opts : List (String × OptValue))
    (flag arg : String) : Option (List (String × OptValue)) :=
  if multiples.contains flag then
    if optTruthy (getOpt opts flag) then
      match getOpt opts flag with
      | some (.arr xs) => some (setOpt opts flag (.arr (xs ++ [arg])))
      | _ => none
    else
      some (setOpt opts flag (.arr [arg]))
  else
    some (setOpt opts flag (.str arg))

/-- JavaScript truthiness of the loop's `flag` variable (`let flag`,
shutdown.mjs line 76): `null`/`undefined` — modelled as `none` — and the
empty string are falsy; every other string is truthy. -/
def flagTruthy : Option String → Bool
  | none => false
  | some s => decide (s ≠ "")

/-- The argument loop of `loadOptions` (shutdown.mjs lines 76-99) from a
given table and flag register.  An argument read while the register is
falsy (`if (!flag)`, line 78 — so also when it holds the empty string)
becomes the next flag after alias normalization; one read while the
register is truthy is stored as that flag's value and the register is
nulled; and a flag left truthy in the register when the arguments run
out (`if (flag)`, line 97) is stored under the `_last` key. -/
def loadOptionsFrom (multiples : List String)
    (aliases : List (String × List String)) :
    List (String × OptValue) → Option String → List String →
    Option (List (String × OptValue))
  | opts, flag, [] =>
      if flagTruthy flag then
        some (setOpt opts "_last" (.str (flag.getD "")))
      else
        some opts
  | opts, flag, arg :: rest =>
      if flagTruthy flag then
        match storeValue multiples opts (flag.getD "") arg with
        | some opts1 => loadOptionsFrom multiples aliases opts1 none rest
        | none => none
      else
        loadOptionsFrom multiples aliases opts
          (some (normalizeFlag aliases arg)) rest

/-- `Application.loadOptions`: parse the command-line argument list (the
source's `process.argv.slice(2)`) into the options table, starting from
the empty static table. -/
def loadOptions (multiples : List String)
    (aliases : List (String × List String)) (argv : List String) :
    Option (List (String × OptValue)) :=
  loadOptionsFrom multiples aliases [] none argv

/-- How C10 says one flag/value pair is stored: appended to the flag's
array when the flag is listed in `multiples` (a fresh array when none
exists yet), overwriting any previous value otherwise. -/
def claimedStore (multiples : List String) (opts : List (String × OptValue))
    (flag arg : String) : List (String × OptValue) :=
  if multiples.contains flag then
    match getOpt opts flag with
    | some (.arr xs) => setOpt opts flag (.arr (xs ++ [arg]))
    | _ => setOpt opts flag (.arr [arg])
  else
    setOpt opts flag (.str arg)

/-- The parse C10 describes, stated in its own words: arguments are
consumed in strictly alternating flag/value pairs, each flag first
normalized through the aliases map, its following argument stored by
`claimedStore`, and when the argument count is odd the final unpaired
flag is stored under the `_last` key. -/
def loadOptionsClaimed (multiples : List String)
    (aliases : List (String × List String)) :
    List (String × OptValue) → List String → List (String × OptValue)
  | opts, [] => opts
  | opts, [f] => setOpt opts "_last" (.str (normalizeFlag aliases f))
  | opts, f :: v :: rest =>
      loadOptionsClaimed multiples aliases
        (claimedStore multiples opts (normalizeFlag aliases f) v) rest

/-- Whether every flag position of the pair reading holds a truthy flag:
each such argument normalizes to a non-empty string.  Only then does the
source's loop really consume strict pairs — an empty-string flag leaves
the register falsy, so the following argument is read as a flag rather
than as a value. -/
def noFalsyFlags (aliases : List (String × List String)) : List String → Bool
  | [] => true
  | [f] => decide (normalizeFlag aliases f ≠ "")
  | f :: _ :: rest =>
      decide (normalizeFlag aliases f ≠ "") && noFalsyFlags aliases rest

/-- Every value stored under a flag listed in `multiples` is an array:
true of the empty table, preserved by the loop, and exactly what makes
the source's `push` safe. -/
def MultiplesArr (multiples : List String) (opts : List (String × OptValue)) : Prop :=
  ∀ k v, multiples.contains k = true → getOpt opts k = some v →
    ∃ xs, v = OptValue.arr xs

theorem getOpt_setOpt (opts : List (String × OptValue)) (k k' : String)
    (v : OptValue) :
    getOpt (setOpt opts k v) k' = if k = k' then some v else getOpt opts k' := by
  induction opts with
  | nil => simp only [setOpt, getOpt]
  | cons hd tl ih =>
      obtain ⟨k0, v0⟩ := hd
      by_cases h0 : k0 = k
      · subst h0
        simp only [setOpt, if_pos rfl, getOpt]
        by_cases h1 : k0 = k'
        · simp [h1]
        · simp [h1]
      · simp only [setOpt, if_neg h0, getOpt, ih]
        by_cases h1 : k0 = k'
        · have h2 : ¬(k = k') := fun h => h0 (h1.trans h.symm)
          simp [h1, h2]
        · simp [h1]

theorem claimedStore_multiplesArr (multiples : List String)
    (opts : List (String × OptValue)) (flag arg : String)
    (hwf : MultiplesArr multiples opts) :
    MultiplesArr multiples (claimedStore multiples opts flag arg) := by
  intro k v hk hget
  unfold claimedStore at hget
  by_cases hm : multiples.contains flag
  · rw [if_pos hm] at hget
    rcases hgo : getOpt opts flag with _ | w
    · rw [hgo] at hget
      rw [getOpt_setOpt] at hget
      by_cases hkk : flag = k
      · rw [if_pos hkk] at hget
        exact ⟨[arg], (Option.some_injective _ hget).symm⟩
      · rw [if_neg hkk] at hget
        exact hwf k v hk hget
    · rw [hgo] at hget
      cases w with
      | str s =>
          rw [getOpt_setOpt] at hget
          by_cases hkk : flag = k
          · rw [if_pos hkk] at hget
            exact ⟨[arg], (Option.some_injective _ hget).symm⟩
          · rw [if_neg hkk] at hget
            exact hwf k v hk hget
      | arr xs =>
          rw [getOpt_setOpt] at hget
          by_cases hkk : flag = k
          · rw [if_pos hkk] at hget
            exact ⟨xs ++ [arg], (Option.some_injective _ hget).symm⟩
          · rw [if_neg hkk] at hget
            exact hwf k v hk hget
  · rw [if_neg hm] at hget
    rw [getOpt_setOpt] at hget
    by_cases hkk : flag = k
    · subst hkk
      exact absurd hk hm
    · rw [if_neg hkk] at hget
      exact hwf k v hk hget

theorem storeValue_eq_claimedStore (multiples : List String)
    (opts : List (String × OptValue)) (flag arg : String)
    (hwf : MultiplesArr multiples opts) :
    storeValue multiples opts flag arg =
      some (claimedStore multiples opts flag arg) := by
  unfold storeValue claimedStore
  by_cases hm : multiples.contains flag
  · rw [if_pos hm, if_pos hm]
    rcases hgo : getOpt opts flag with _ | w
    · simp [optTruthy]
    · rcases hwf flag w hm hgo with ⟨xs, rfl⟩
      simp [optTruthy]
  · rw [if_neg hm, if_neg hm]

theorem loadOptionsFrom_read_flag (multiples : List String)
    (aliases : List (String × List String)) (opts : List (String × OptValue))
    (flag : Option String) (hf : flagTruthy flag = false)
    (arg : String) (rest : List String) :
    loadOptionsFrom multiples aliases opts flag (arg :: rest) =
      loadOptionsFrom multiples aliases opts
        (some (normalizeFlag aliases arg)) rest := by
  simp [loadOptionsFrom, hf]

theorem loadOptionsFrom_end_truthy (multiples : List String)
    (aliases : List (String × List String)) (opts : List (String × OptValue))
    (flag : String) (hf : flag ≠ "") :
    loadOptionsFrom multiples aliases opts (some flag) [] =
      some (setOpt opts "_last" (.str flag)) := by
  simp [loadOptionsFrom, flagTruthy, hf]

theorem loadOptionsFrom_store (multiples : List String)
    (aliases : List (String × List String)) (opts : List (String × OptValue))
    (flag : String) (hf : flag ≠ "") (arg : String) (rest : List String)
    (opts1 : List (String × OptValue))
    (hs : storeValue multiples opts flag arg = some opts1) :
    loadOptionsFrom multiples aliases opts (some flag) (arg :: rest) =
      loadOptionsFrom multiples aliases opts1 none rest := by
  simp [loadOptionsFrom, flagTruthy, hf, hs]

theorem loadOptionsFrom_eq_claimed (multiples : List String)
    (aliases : List (String × List String)) :
    ∀ n argv, argv.length ≤ n → noFalsyFlags aliases argv = true →
      ∀ opts, MultiplesArr multiples opts →
      loadOptionsFrom multiples aliases opts none argv =
        some (loadOptionsClaimed multiples aliases opts argv) := by
  intro n
  induction n with
  | zero =>
      intro argv hlen _ opts _
      rw [List.length_eq_zero.mp (Nat.le_zero.mp hlen)]
      rfl
  | succ n ih =>
      intro argv hlen hnf opts hwf
      match argv with
      | [] => rfl
      | [f] =>
          have hf : normalizeFlag aliases f ≠ "" := by
            simpa [noFalsyFlags] using hnf
          rw [loadOptionsFrom_read_flag multiples aliases opts none rfl f [],
            loadOptionsFrom_end_truthy multiples aliases opts _ hf]
          rfl
      | f :: v :: rest =>
          have hsplit := hnf
          simp only [noFalsyFlags, Bool.and_eq_true, decide_eq_true_eq] at hsplit
          have hf : normalizeFlag aliases f ≠ "" := hsplit.1
          have hrest : noFalsyFlags aliases rest = true := hsplit.2
          rw [loadOptionsFrom_read_flag multiples aliases opts none rfl f (v :: rest),
            loadOptionsFrom_store multiples aliases opts _ hf v rest _
              (storeValue_eq_claimedStore multiples opts
                (normalizeFlag aliases f) v hwf)]
          have hlen2 : rest.length ≤ n := by
            simp only [List.length_cons] at hlen
            omega
          rw [ih rest hlen2 hrest _
            (claimedStore_multiplesArr multiples opts (normalizeFlag aliases f) v hwf)]
          rfl

/-- Counterexample to C10 as stated: JavaScript string truthiness makes
the empty string falsy as a flag, so the loop does not consume arguments
in strictly alternating flag/value pairs.  For `["", "x"]` (even count)
the pair reading would store `"x"` under the flag `""`, but the program
leaves the register falsy and re-reads `"x"` as a flag, storing it under
`_last`; for `[""]` (odd count) the pair reading would store `""` under
`_last`, but the trailing `if (flag)` is falsy and the program stores
nothing. -/
theorem loadOptions_empty_flag_counterexample :
    loadOptions [] [] ["", "x"] ≠
      some (loadOptionsClaimed [] [] [] ["", "x"]) ∧
    loadOptions [] [] ["", "x"] = some [("_last", OptValue.str "x")] ∧
    loadOptionsClaimed [] [] [] ["", "x"] = [("", OptValue.str "x")] ∧
    loadOptions [] [] [""] = some [] ∧
    loadOptionsClaimed [] [] [] [""] = [("_last", OptValue.str "")] := by
  decide

/-- C10 as amended: on any argument list whose flag positions all
normalize to truthy (non-empty) flags, `loadOptions` parses exactly the
strictly alternating flag/value pairs the claim describes — each flag
normalized through the aliases map, each value appended to the flag's
array when the flag is in `multiples` and overwriting otherwise, and an
odd trailing flag stored under `_last` — and never reaches the TypeError
the store branch could raise on a malformed table.  An empty-string flag
is falsy for the loop's register, so the next argument would be read as
a flag rather than a value: see `loadOptions_empty_flag_counterexample`. -/
theorem loadOptions_parses_alternating_pairs (multiples : List String)
    (aliases : List (String × List String)) (argv : List String)
    (hnf : noFalsyFlags aliases argv = true) :
    loadOptions multiples aliases argv =
      some (loadOptionsClaimed multiples aliases [] argv) :=
  loadOptionsFrom_eq_claimed multiples aliases argv.length argv le_rfl hnf []
    (fun k v _ hget => by simp [getOpt] at hget)

/-- Witness for the amended C10 at a concrete argument list exercising an
alias, a `multiples` flag accumulating twice, an overwritten ordinary
flag, and an odd trailing flag. -/
theorem loadOptions_parses_alternating_pairs_witness :
    noFalsyFlags [("-c", ["--config"])]
        ["--config", "a", "-c", "b", "-v", "1", "-v", "2", "-x"] = true ∧
    loadOptions ["-c"] [("-c", ["--config"])]
        ["--config", "a", "-c", "b", "-v", "1", "-v", "2", "-x"] =
      some (loadOptionsClaimed ["-c"] [("-c", ["--config"])] []
        ["--config", "a", "-c", "b", "-v", "1", "-v", "2", "-x"]) :=
  ⟨by decide,
   loadOptions_parses_alternating_pairs ["-c"] [("-c", ["--config"])]
     ["--config", "a", "-c", "b", "-v", "1", "-v", "2", "-x"] (by decide)⟩

end MoonModTools
